import Mathlib

/-!
Verification of the envx encryption envelope and key-provider subsystem.

The definitions below are a shallow embedding of the Go source:
  * `pkg/crypto/crypto.go` — the AES-GCM envelope codec (Encrypt / Decrypt /
    IsEncrypted), with Go `[]byte` and `string` values modelled as `List Nat`
    (each element a byte value `< 256`) and the standard-library AES-GCM AEAD
    modelled as an abstract structure `GCM` whose documented contract
    (round-trip, 16-byte tag overhead) is carried as explicit hypotheses.
  * the keystore backends (`macOSKeyStore` in `pkg/config/config.go`,
    `MockKeyStore`, and the two `PasswordKeyStore` variants in
    `pkg/keystore`), with external state (keychain, salt files, environment,
    prompts, random bytes) passed explicitly.
-/

/-! ## Base64 (standard alphabet with padding), as used by
`encoding/base64.StdEncoding` in the Go source. -/

/-- Value of a base64 digit (sextet, `< 64`) as its ASCII code. -/
def b64chr (n : Nat) : Nat :=
  if n < 26 then 65 + n
  else if n < 52 then 97 + (n - 26)
  else if n < 62 then 48 + (n - 52)
  else if n = 62 then 43
  else 47

/-- Inverse of `b64chr`: ASCII code of a base64 digit back to its sextet;
`none` for characters outside the standard alphabet. -/
def b64val (c : Nat) : Option Nat :=
  if 65 ≤ c ∧ c ≤ 90 then some (c - 65)
  else if 97 ≤ c ∧ c ≤ 122 then some (c - 97 + 26)
  else if 48 ≤ c ∧ c ≤ 57 then some (c - 48 + 52)
  else if c = 43 then some 62
  else if c = 47 then some 63
  else none

/-- Standard base64 encoding of a byte list, producing the ASCII codes of the
encoded text (padding `=` is ASCII 61). -/
def b64enc : List Nat → List Nat
  | [] => []
  | [b1] => [b64chr (b1 / 4), b64chr (b1 % 4 * 16), 61, 61]
  | [b1, b2] => [b64chr (b1 / 4), b64chr (b1 % 4 * 16 + b2 / 16),
                 b64chr (b2 % 16 * 4), 61]
  | b1 :: b2 :: b3 :: rest =>
    b64chr (b1 / 4) :: b64chr (b1 % 4 * 16 + b2 / 16) ::
    b64chr (b2 % 16 * 4 + b3 / 64) :: b64chr (b3 % 64) :: b64enc rest

/-- Standard base64 decoding of a list of ASCII codes; `none` on any input Go's
`base64.StdEncoding.DecodeString` rejects (bad length, bad character,
misplaced padding). -/
def b64dec : List Nat → Option (List Nat)
  | [] => some []
  | c1 :: c2 :: c3 :: c4 :: rest =>
    (b64val c1).bind fun v1 =>
    (b64val c2).bind fun v2 =>
    if c3 = 61 then
      if c4 = 61 ∧ rest = [] then some [v1 * 4 + v2 / 16] else none
    else
      (b64val c3).bind fun v3 =>
      if c4 = 61 then
        if rest = [] then some [v1 * 4 + v2 / 16, v2 % 16 * 16 + v3 / 4]
        else none
      else
        (b64val c4).bind fun v4 =>
        (b64dec rest).map fun bs =>
          (v1 * 4 + v2 / 16) :: (v2 % 16 * 16 + v3 / 4) ::
          (v3 % 4 * 64 + v4) :: bs
  | _ => none

theorem b64chr_ne_pad : ∀ n : Fin 64, b64chr n.val ≠ 61 := by decide

theorem b64val_b64chr : ∀ n : Fin 64, b64val (b64chr n.val) = some n.val := by
  decide

theorem b64chr_ne_pad' {n : Nat} (h : n < 64) : b64chr n ≠ 61 :=
  b64chr_ne_pad ⟨n, h⟩

theorem b64val_b64chr' {n : Nat} (h : n < 64) : b64val (b64chr n) = some n :=
  b64val_b64chr ⟨n, h⟩

/-- Decoding inverts encoding on genuine byte lists. -/
theorem b64dec_b64enc (p : List Nat) (h : ∀ b ∈ p, b < 256) :
    b64dec (b64enc p) = some p := by
  match p with
  | [] => rfl
  | [b1] =>
    have hb1 : b1 < 256 := h b1 (by simp)
    have h1 : b1 / 4 < 64 := by omega
    have h2 : b1 % 4 * 16 < 64 := by omega
    simp [b64enc, b64dec, b64val_b64chr' h1, b64val_b64chr' h2,
      b64chr_ne_pad' h2]
    omega
  | [b1, b2] =>
    have hb1 : b1 < 256 := h b1 (by simp)
    have hb2 : b2 < 256 := h b2 (by simp)
    have h1 : b1 / 4 < 64 := by omega
    have h2 : b1 % 4 * 16 + b2 / 16 < 64 := by omega
    have h3 : b2 % 16 * 4 < 64 := by omega
    simp [b64enc, b64dec, b64val_b64chr' h1, b64val_b64chr' h2,
      b64val_b64chr' h3, b64chr_ne_pad' h3]
    omega
  | [b1, b2, b3] =>
    have hb1 : b1 < 256 := h b1 (by simp)
    have hb2 : b2 < 256 := h b2 (by simp)
    have hb3 : b3 < 256 := h b3 (by simp)
    have h1 : b1 / 4 < 64 := by omega
    have h2 : b1 % 4 * 16 + b2 / 16 < 64 := by omega
    have h3 : b2 % 16 * 4 + b3 / 64 < 64 := by omega
    have h4 : b3 % 64 < 64 := by omega
    simp [b64enc, b64dec, b64val_b64chr' h1, b64val_b64chr' h2,
      b64val_b64chr' h3, b64val_b64chr' h4, b64chr_ne_pad' h3,
      b64chr_ne_pad' h4]
    omega
  | b1 :: b2 :: b3 :: b4 :: rest =>
    have hb1 : b1 < 256 := h b1 (by simp)
    have hb2 : b2 < 256 := h b2 (by simp)
    have hb3 : b3 < 256 := h b3 (by simp)
    have h1 : b1 / 4 < 64 := by omega
    have h2 : b1 % 4 * 16 + b2 / 16 < 64 := by omega
    have h3 : b2 % 16 * 4 + b3 / 64 < 64 := by omega
    have h4 : b3 % 64 < 64 := by omega
    have ih : b64dec (b64enc (b4 :: rest)) = some (b4 :: rest) :=
      b64dec_b64enc (b4 :: rest) (fun b hb => h b (by simp at hb ⊢; tauto))
    simp [b64enc, b64dec, b64val_b64chr' h1, b64val_b64chr' h2,
      b64val_b64chr' h3, b64val_b64chr' h4, b64chr_ne_pad' h3,
      b64chr_ne_pad' h4, ih]
    omega

/-! ## The envelope codec (`pkg/crypto/crypto.go`)

`MagicPrefix = "envx"` and `KeySize = 32`. AES-GCM (Go standard library,
external to the repository) is abstracted as a `GCM` structure: `enc k n p`
is `gcm.Seal(nil, nonce, plaintext, nil)` and `opn k n c` is
`gcm.Open(nil, nonce, ciphertext, nil)` (`some` on success, `none` on
authentication failure). The standard AES-GCM nonce size is 12 bytes and the
tag overhead 16 bytes; those documented facts are the `GCM.RoundTrip`,
`GCM.SealLen` and `GCM.SealBytes` hypotheses used by the theorems. -/

/-- Byte values of the magic marker `MagicPrefix = "envx"`. -/
def magicBytes : List Nat := [101, 110, 118, 120]

/-- Model of `KeySize = 32` from `pkg/crypto/crypto.go`. -/
def keySize : Nat := 32

/-- Model of `strings.HasPrefix s pat` on byte lists: `startsWith pat s` is true iff
`s` begins with `pat`. -/
def startsWith : List Nat → List Nat → Bool
  | [], _ => true
  | _ :: _, [] => false
  | p :: ps, x :: xs => p = x && startsWith ps xs

/-- Abstract authenticated cipher standing for the Go standard library's
AES-GCM instance: `enc key nonce plaintext` and `opn key nonce ciphertext`. -/
structure GCM where
  enc : List Nat → List Nat → List Nat → List Nat
  opn : List Nat → List Nat → List Nat → Option (List Nat)

/-- Documented AES-GCM contract: opening what was sealed under the same key
and nonce recovers the plaintext. -/
def GCM.RoundTrip (g : GCM) : Prop :=
  ∀ k n p, g.opn k n (g.enc k n p) = some p

/-- Documented AES-GCM contract: sealing adds exactly the 16-byte tag. -/
def GCM.SealLen (g : GCM) : Prop :=
  ∀ k n p, (g.enc k n p).length = p.length + 16

/-- Sealed output consists of bytes whenever the plaintext does. -/
def GCM.SealBytes (g : GCM) : Prop :=
  ∀ k n p, (∀ b ∈ p, b < 256) → ∀ b ∈ g.enc k n p, b < 256

/-- Errors surfaced by the envelope codec, one constructor per distinct
error the Go code constructs. -/
inductive CryptoErr where
  /-- Model of `"invalid key size: expected %d bytes, got %d"` -/
  | invalidKeySize (expected got : Nat)
  /-- Model of `"ciphertext too short"` (wrapped as `"failed to decrypt: %w"`) -/
  | tooShort
  /-- Model of `gcm.Open` authentication failure (wrapped as `"failed to decrypt"`) -/
  | openFailed
  deriving DecidableEq, Repr

/-- Model of `AESEncryptor.encryptAES`: `gcm.Seal(nonce, nonce, plaintext, nil)` after
drawing `nonce` from the system RNG; the random nonce is an explicit
argument. -/
def encryptAES (g : GCM) (key nonce plaintext : List Nat) : List Nat :=
  nonce ++ g.enc key nonce plaintext

/-- Model of `AESEncryptor.decryptAES`: split the nonce off the front (error
`"ciphertext too short"` if fewer than 12 bytes remain), then `gcm.Open`. -/
def decryptAES (g : GCM) (key ct : List Nat) : Except CryptoErr (List Nat) :=
  if ct.length < 12 then .error .tooShort
  else
    match g.opn key (ct.take 12) (ct.drop 12) with
    | some p => .ok p
    | none => .error .openFailed

/-- Model of `AESEncryptor.IsEncrypted`: base64-decodable, decoded length strictly
greater than the marker length, decoded bytes begin with the marker. -/
def IsEncrypted (v : List Nat) : Bool :=
  match b64dec v with
  | none => false
  | some d => decide (d.length > magicBytes.length) && startsWith magicBytes d

/-- Model of `AESEncryptor.Encrypt`: key-size check, idempotence check, then
`encryptAES`, marker prepend, base64 encode. -/
def Encrypt (g : GCM) (nonce plaintext key : List Nat) :
    Except CryptoErr (List Nat) :=
  if key.length ≠ keySize then .error (.invalidKeySize keySize key.length)
  else if IsEncrypted plaintext then .ok plaintext
  else .ok (b64enc (magicBytes ++ encryptAES g key nonce plaintext))

/-- The pass-through branch condition of `AESEncryptor.Decrypt`: true iff the
value fails base64 decoding, or the decoded bytes are shorter than the marker
or do not begin with it. -/
def decryptPassThru (v : List Nat) : Bool :=
  match b64dec v with
  | none => true
  | some d => decide (d.length < magicBytes.length) || !startsWith magicBytes d

/-- Model of `AESEncryptor.Decrypt`: key-size check; non-base64 and non-marker inputs
are returned unchanged; otherwise the marker is stripped and `decryptAES`
runs. -/
def Decrypt (g : GCM) (ciphertext key : List Nat) :
    Except CryptoErr (List Nat) :=
  if key.length ≠ keySize then .error (.invalidKeySize keySize key.length)
  else
    match b64dec ciphertext with
    | none => .ok ciphertext
    | some decoded =>
      if decoded.length < magicBytes.length ∨ ¬ startsWith magicBytes decoded
      then .ok ciphertext
      else decryptAES g key (decoded.drop magicBytes.length)

theorem startsWith_append (pat rest : List Nat) :
    startsWith pat (pat ++ rest) = true := by
  induction pat with
  | nil => rfl
  | cons p ps ih => simp [startsWith, ih]

/-- A successfully produced envelope decodes to marker ++ nonce ++ sealed
bytes. -/
theorem envelope_decodes (g : GCM) (key nonce p : List Nat)
    (hp : ∀ b ∈ p, b < 256) (hn : ∀ b ∈ nonce, b < 256)
    (hsb : g.SealBytes) :
    b64dec (b64enc (magicBytes ++ encryptAES g key nonce p)) =
      some (magicBytes ++ nonce ++ g.enc key nonce p) := by
  have hbytes : ∀ b ∈ magicBytes ++ encryptAES g key nonce p, b < 256 := by
    intro b hb
    simp [magicBytes, encryptAES] at hb
    rcases hb with h | h | h | h | h | h
    · omega
    · omega
    · omega
    · omega
    · exact hn b h
    · exact hsb key nonce p hp b h
  rw [b64dec_b64enc _ hbytes]
  simp [encryptAES]

/-- Envelopes produced by the non-trivial branch of `Encrypt` satisfy
`IsEncrypted`. -/
theorem isEncrypted_envelope (g : GCM) (key nonce p : List Nat)
    (hp : ∀ b ∈ p, b < 256) (hn : ∀ b ∈ nonce, b < 256)
    (hnl : nonce.length = 12) (hsb : g.SealBytes) :
    IsEncrypted (b64enc (magicBytes ++ encryptAES g key nonce p)) = true := by
  rw [IsEncrypted, envelope_decodes g key nonce p hp hn hsb]
  have : startsWith magicBytes
      (magicBytes ++ (nonce ++ g.enc key nonce p)) = true :=
    startsWith_append _ _
  simp only [List.append_assoc, this, Bool.and_true]
  simp [magicBytes, hnl]

/-! ## Key providers (`pkg/keystore`, `pkg/config/config.go`)

External state is explicit: the platform keychain and the salt-file directory
are association lists, the system RNG output is a `fresh` argument (the Go
code always draws exactly `KeySize`/`SaltSize` bytes), the `ENVX_PASSWORD`
environment variable and the configured password are strings (`""` = unset,
exactly the emptiness tests the Go code performs), and prompt results are a
list of successive return values of the injected prompt function. PBKDF2
(external library) is an abstract `kdf password salt iterations` argument. -/

/-- Errors surfaced by the keystores, one constructor per distinct error the
Go code constructs. -/
inductive KSErr where
  /-- keychain lookup: item not found -/
  | keychainNotFound
  /-- keychain lookup failed for a reason other than not-found -/
  | keychainDenied
  /-- Model of `"invalid key size: expected %d bytes, got %d"` -/
  | invalidKeySize (expected got : Nat)
  /-- Model of `"key not found for account: %s"` (mock store) -/
  | notFound (account : String)
  /-- Model of `"SetKey not supported for password-based keystore - keys are derived
  from passwords"` -/
  | unsupported
  /-- Model of `"passwords do not match"` -/
  | passwordMismatch
  /-- prompt function returned an error -/
  | promptFailed
  /-- Model of `"failed to read salt file"` (includes file-does-not-exist) -/
  | saltReadFailed
  /-- Model of `"invalid salt size: expected %d bytes, got %d"` -/
  | invalidSaltSize (expected got : Nat)
  /-- Model of `"salt file exists but cannot be read: %w"` -/
  | saltUnreadable
  deriving DecidableEq, Repr

/-- Association-list lookup (Go map read / keyed record read). -/
def lookupKey {α : Type} (m : List (String × α)) (a : String) : Option α :=
  match m with
  | [] => none
  | (b, v) :: rest => if b = a then some v else lookupKey rest a

/-- Association-list overwrite-or-insert (Go map write / file write). -/
def updateKey {α : Type} (m : List (String × α)) (a : String) (v : α) :
    List (String × α) :=
  match m with
  | [] => [(a, v)]
  | (b, w) :: rest =>
    if b = a then (b, v) :: rest else (b, w) :: updateKey rest a v

/-! ### `MockKeyStore` (in-memory map, `pkg/keystore/mock.go`) -/

/-- Model of `MockKeyStore.GetKey`. -/
def mockGetKey (st : List (String × List Nat)) (a : String) :
    Except KSErr (List Nat) :=
  match lookupKey st a with
  | some k => .ok k
  | none => .error (.notFound a)

/-- Model of `MockKeyStore.SetKey`: key-size check, then map write. -/
def mockSetKey (st : List (String × List Nat)) (a : String) (key : List Nat) :
    Except KSErr Unit × List (String × List Nat) :=
  if key.length ≠ keySize then (.error (.invalidKeySize keySize key.length), st)
  else (.ok (), updateKey st a key)

/-- Model of `MockKeyStore.CreateKey`: `fresh` is the RNG output filling
`make([]byte, KeySize)`. -/
def mockCreateKey (fresh : List Nat) (st : List (String × List Nat))
    (a : String) : Except KSErr (List Nat) × List (String × List Nat) :=
  match mockSetKey st a fresh with
  | (.ok _, st') => (.ok fresh, st')
  | (.error e, st') => (.error e, st')

/-- Model of `MockKeyStore.LoadOrCreateKey`: reuse the stored key only when `GetKey`
succeeded and the key has length `KeySize`; otherwise create a new one. -/
def mockLoadOrCreateKey (fresh : List Nat) (st : List (String × List Nat))
    (a : String) : Except KSErr (List Nat) × List (String × List Nat) :=
  match mockGetKey st a with
  | .ok k => if k.length = keySize then (.ok k, st)
             else mockCreateKey fresh st a
  | .error _ => mockCreateKey fresh st a

/-! ### `macOSKeyStore` (`pkg/config/config.go`), over an abstract keychain -/

/-- The host keychain: records addressed by (service, account); reads of an
address in `failing` fail for a reason other than not-found (permission
denied, unreadable record). -/
structure Keychain where
  items : List (String × List Nat)
  failing : List String
  deriving DecidableEq, Repr

/-- Model of `getGenericPassword service account` (platform primitive; the address is
collapsed to the account since the store uses one fixed service). -/
def kcGet (kc : Keychain) (a : String) : Except KSErr (List Nat) :=
  if a ∈ kc.failing then .error .keychainDenied
  else
    match lookupKey kc.items a with
    | some v => .ok v
    | none => .error .keychainNotFound

/-- Model of `setGenericPassword`: insert-or-overwrite. -/
def kcSet (kc : Keychain) (a : String) (v : List Nat) : Keychain :=
  { kc with items := updateKey kc.items a v }

/-- Model of `macOSKeyStore.GetKey` (error wrapped as
`"failed to get key from keychain: %w"`). -/
def macGetKey (kc : Keychain) (a : String) : Except KSErr (List Nat) :=
  kcGet kc a

/-- Model of `macOSKeyStore.SetKey`: key-size check, then keychain write. -/
def macSetKey (kc : Keychain) (a : String) (key : List Nat) :
    Except KSErr Unit × Keychain :=
  if key.length ≠ keySize then (.error (.invalidKeySize keySize key.length), kc)
  else (.ok (), kcSet kc a key)

/-- Model of `macOSKeyStore.CreateKey`: fresh random key, stored via `SetKey`. -/
def macCreateKey (fresh : List Nat) (kc : Keychain) (a : String) :
    Except KSErr (List Nat) × Keychain :=
  match macSetKey kc a fresh with
  | (.ok _, kc') => (.ok fresh, kc')
  | (.error e, kc') => (.error e, kc')

/-- Model of `macOSKeyStore.LoadOrCreateKey`: reuse the stored key only when `GetKey`
succeeded and the key has length `KeySize`; otherwise create a new one
(error wrapped as `"failed to create new key: %w"`). -/
def macLoadOrCreateKey (fresh : List Nat) (kc : Keychain) (a : String) :
    Except KSErr (List Nat) × Keychain :=
  match macGetKey kc a with
  | .ok k => if k.length = keySize then (.ok k, kc)
             else macCreateKey fresh kc a
  | .error _ => macCreateKey fresh kc a

/-! ### `PasswordKeyStore` — salt files and the two source variants -/

/-- Model of `SaltSize = 32`. -/
def saltSize : Nat := 32

/-- A salt file on disk: readable content, or present but unreadable. An
absent file is the absence of an entry in the association list. -/
inductive SaltFile where
  | unreadable
  | content (bytes : List Nat)
  deriving DecidableEq, Repr

/-- The salt directory. -/
def SaltFS : Type := List (String × SaltFile)

/-- Model of `getSalt` (identical in both source variants): read the per-account salt
file (read failure and absence both surface as
`"failed to read salt file"`), then check the 32-byte size. -/
def getSalt (fs : SaltFS) (a : String) : Except KSErr (List Nat) :=
  match lookupKey fs a with
  | none => .error .saltReadFailed
  | some .unreadable => .error .saltReadFailed
  | some (.content s) =>
    if s.length ≠ saltSize then .error (.invalidSaltSize saltSize s.length)
    else .ok s

/-- Model of `setSalt`'s successful effect: write the salt file (overwrite-or-create). -/
def setSalt (fs : SaltFS) (a : String) (s : List Nat) : SaltFS :=
  updateKey fs a (.content s)

/-- Model of `PasswordKeyStore.getPassword` (src/unnamed/part_002): the
`ENVX_PASSWORD` environment variable first, then the configured password,
then the prompt. `""` means unset, exactly as the Go code tests. -/
def getPassword (env cfg : String) (promptRes : Option String) :
    Except KSErr String :=
  if env ≠ "" then .ok env
  else if cfg ≠ "" then .ok cfg
  else
    match promptRes with
    | some s => .ok s
    | none => .error .promptFailed

/-- Model of `PasswordKeyStore.GetKey` (src/unnamed/part_002): resolve the password,
read the salt, derive the key. -/
def pw2GetKey (kdf : String → List Nat → Nat → List Nat) (iters : Nat)
    (env cfg : String) (promptRes : Option String) (fs : SaltFS)
    (a : String) : Except KSErr (List Nat) :=
  match getPassword env cfg promptRes with
  | .error e => .error e
  | .ok pw =>
    match getSalt fs a with
    | .error e => .error e
    | .ok salt => .ok (kdf pw salt iters)

/-- Model of `PasswordKeyStore.SetKey` (src/unnamed/part_002 lines 81-84): always
rejected — passwords are never stored. -/
def pw2SetKey (a : String) (key : List Nat) : Except KSErr Unit :=
  .error .unsupported

/-- Model of `PasswordKeyStore.CreateKey` (src/unnamed/part_002 lines 86-113):
generate a fresh salt, store it (before any password interaction), resolve
the password once (no confirmation in this variant), derive the key. -/
def pw2CreateKey (kdf : String → List Nat → Nat → List Nat) (iters : Nat)
    (env cfg : String) (promptRes : Option String) (freshSalt : List Nat)
    (fs : SaltFS) (a : String) : Except KSErr (List Nat) × SaltFS :=
  if freshSalt.length ≠ saltSize
  then (.error (.invalidSaltSize saltSize freshSalt.length), fs)
  else
    let fs' := setSalt fs a freshSalt
    match getPassword env cfg promptRes with
    | .error e => (.error e, fs')
    | .ok pw => (.ok (kdf pw freshSalt iters), fs')

/-- Model of `PasswordKeyStore.LoadOrCreateKey` (src/unnamed/part_002 lines 115-133):
derive from an existing salt; create only when the salt file does not exist;
propagate (`"salt file exists but cannot be read"`) when the file is present
but unreadable or malformed. -/
def pw2LoadOrCreateKey (kdf : String → List Nat → Nat → List Nat)
    (iters : Nat) (env cfg : String) (promptRes : Option String)
    (freshSalt : List Nat) (fs : SaltFS) (a : String) :
    Except KSErr (List Nat) × SaltFS :=
  match getSalt fs a with
  | .ok _ => (pw2GetKey kdf iters env cfg promptRes fs a, fs)
  | .error _ =>
    match lookupKey fs a with
    | none => pw2CreateKey kdf iters env cfg promptRes freshSalt fs a
    | some _ => (.error .saltUnreadable, fs)

/-- Model of `PasswordKeyStore.GetKey` (src/unnamed/part_001): prompt directly (this
variant has no environment/config password), read the salt, derive. -/
def pw1GetKey (kdf : String → List Nat → Nat → List Nat) (iters : Nat)
    (prompts : List String) (fs : SaltFS) (a : String) :
    Except KSErr (List Nat) :=
  match prompts with
  | [] => .error .promptFailed
  | pw :: _ =>
    match getSalt fs a with
    | .error e => .error e
    | .ok salt => .ok (kdf pw salt iters)

/-- Model of `PasswordKeyStore.CreateKey` (src/unnamed/part_001 lines 74-107):
generate and store a fresh salt, prompt for the password, prompt again to
confirm, fail with `"passwords do not match"` on mismatch, else derive. -/
def pw1CreateKey (kdf : String → List Nat → Nat → List Nat) (iters : Nat)
    (prompts : List String) (freshSalt : List Nat) (fs : SaltFS)
    (a : String) : Except KSErr (List Nat) × SaltFS :=
  if freshSalt.length ≠ saltSize
  then (.error (.invalidSaltSize saltSize freshSalt.length), fs)
  else
    let fs' := setSalt fs a freshSalt
    match prompts with
    | [] => (.error .promptFailed, fs')
    | pw :: rest =>
      match rest with
      | [] => (.error .promptFailed, fs')
      | confirm :: _ =>
        if pw ≠ confirm then (.error .passwordMismatch, fs')
        else (.ok (kdf pw freshSalt iters), fs')

/-- Model of `PasswordKeyStore.LoadOrCreateKey` (src/unnamed/part_001 lines 109-120):
derive from an existing salt, else create (this variant has no
exists-but-unreadable distinction). -/
def pw1LoadOrCreateKey (kdf : String → List Nat → Nat → List Nat)
    (iters : Nat) (prompts : List String) (freshSalt : List Nat)
    (fs : SaltFS) (a : String) : Except KSErr (List Nat) × SaltFS :=
  match getSalt fs a with
  | .ok _ => (pw1GetKey kdf iters prompts fs a, fs)
  | .error _ => pw1CreateKey kdf iters prompts freshSalt fs a

/-! ## A concrete cipher instance

Used by witnesses and counterexamples: a stand-in authenticated cipher that
appends a fixed 16-byte tag and checks it on opening. It satisfies the same
contract (`RoundTrip`, `SealLen`, `SealBytes`) assumed of AES-GCM, so every
statement instantiated with it exercises exactly the repository's envelope
logic. -/

/-- The stand-in tag. -/
def tag16 : List Nat := List.replicate 16 1

/-- Concrete cipher: plaintext followed by `tag16`; opening checks the tag. -/
def gcm0 : GCM where
  enc := fun _ _ p => p ++ tag16
  opn := fun _ _ c =>
    if c.length < 16 then none
    else if c.drop (c.length - 16) = tag16 then some (c.take (c.length - 16))
    else none

theorem gcm0_roundTrip : gcm0.RoundTrip := by
  intro k n p
  have hl : (p ++ tag16).length = p.length + 16 := by simp [tag16]
  have hd : (p ++ tag16).drop ((p ++ tag16).length - 16) = tag16 := by
    rw [hl]
    simp
  have ht : (p ++ tag16).take ((p ++ tag16).length - 16) = p := by
    rw [hl]
    simp
  simp [gcm0, GCM.RoundTrip, hl, hd, ht]

theorem gcm0_sealLen : gcm0.SealLen := by
  intro k n p
  simp [gcm0, GCM.SealLen, tag16]

theorem gcm0_sealBytes : gcm0.SealBytes := by
  intro k n p hp b hb
  simp [gcm0, tag16] at hb
  rcases hb with h | h
  · exact hp b h
  · omega

/-! ## Helper lemmas for the claims -/

theorem lookupKey_updateKey {α : Type} (m : List (String × α)) (a : String)
    (v : α) : lookupKey (updateKey m a v) a = some v := by
  induction m with
  | nil => simp [updateKey, lookupKey]
  | cons hd tl ih =>
    obtain ⟨b, w⟩ := hd
    by_cases hb : b = a <;> simp [updateKey, lookupKey, hb, ih]

theorem startsWith_length_le (pat d : List Nat) (h : startsWith pat d = true)
    (hl : d.length ≤ pat.length) : d = pat := by
  induction pat generalizing d with
  | nil =>
    cases d with
    | nil => rfl
    | cons x xs => simp at hl
  | cons p ps ih =>
    cases d with
    | nil => simp [startsWith] at h
    | cons x xs =>
      simp [startsWith] at h
      simp at hl
      rw [ih xs h.2 hl, h.1]

/-- C1 (amended): for every plaintext `p` that is not already a valid
envelope and every 32-byte key `k`, `Decrypt (Encrypt p k) k` returns `p`
(cipher contract and byte-ranged inputs as hypotheses; the 12-byte random
nonce is explicit). The unamended claim fails for plaintexts that already
pass `IsEncrypted` — see the counterexample. -/
theorem c1_round_trip (g : GCM) (nonce p k : List Nat)
    (hrt : g.RoundTrip) (hsb : g.SealBytes) (hk : k.length = 32)
    (hn : nonce.length = 12) (hnb : ∀ b ∈ nonce, b < 256)
    (hpb : ∀ b ∈ p, b < 256) (hne : IsEncrypted p = false) :
    ∃ c, Encrypt g nonce p k = .ok c ∧ Decrypt g c k = .ok p := by
  refine ⟨b64enc (magicBytes ++ encryptAES g k nonce p), ?_, ?_⟩
  · simp [Encrypt, hk, keySize, hne]
  · have hdec := envelope_decodes g k nonce p hpb hnb hsb
    have hsw : startsWith magicBytes
        (magicBytes ++ nonce ++ g.enc k nonce p) = true := by
      rw [List.append_assoc]
      exact startsWith_append _ _
    have hlen : ¬ ((magicBytes ++ nonce ++ g.enc k nonce p).length <
        magicBytes.length) := by
      simp [magicBytes]
    have hdrop : (magicBytes ++ nonce ++ g.enc k nonce p).drop
        magicBytes.length = nonce ++ g.enc k nonce p := by
      rw [List.append_assoc]
      exact List.drop_left _ _
    have htake12 : (nonce ++ g.enc k nonce p).take 12 = nonce :=
      List.take_left' hn
    have hdrop12 : (nonce ++ g.enc k nonce p).drop 12 = g.enc k nonce p :=
      List.drop_left' hn
    have hshort : ¬ ((nonce ++ g.enc k nonce p).length < 12) := by
      simp [hn]
    have hsw' : startsWith magicBytes
        (magicBytes ++ (nonce ++ g.enc k nonce p)) = true :=
      startsWith_append _ _
    have hge : ¬ (nonce.length + (g.enc k nonce p).length < 12) := by
      omega
    simp [Decrypt, hk, keySize, hdec, hlen, hsw, hsw', hdrop, decryptAES,
      hshort, hge, htake12, hdrop12, hrt k nonce p]

/-- C1 witness: a concrete two-byte plaintext round-trips under the concrete
cipher instance. -/
theorem c1_round_trip_wit :
    ∃ c, Encrypt gcm0 (List.replicate 12 0) [104, 105]
          (List.replicate 32 0) = .ok c ∧
        Decrypt gcm0 c (List.replicate 32 0) = .ok [104, 105] :=
  c1_round_trip gcm0 (List.replicate 12 0) [104, 105] (List.replicate 32 0)
    gcm0_roundTrip gcm0_sealBytes (by simp) (by simp)
    (by intro b hb; rw [List.eq_of_mem_replicate hb]; omega)
    (by intro b hb; simp at hb; rcases hb with h | h <;> omega)
    (by rfl)

/-- C1 counterexample: a plaintext that is already a valid envelope (base64
of the marker followed by 28 bytes) is returned unchanged by `Encrypt`, and
`Decrypt` then fails instead of returning the plaintext, so
`Decrypt (Encrypt p k) k = p` fails for this `p`. -/
theorem c1_cex :
    Encrypt gcm0 (List.replicate 12 0)
        (b64enc (magicBytes ++ List.replicate 28 0)) (List.replicate 32 0)
      = .ok (b64enc (magicBytes ++ List.replicate 28 0)) ∧
    Decrypt gcm0 (b64enc (magicBytes ++ List.replicate 28 0))
        (List.replicate 32 0) = .error .openFailed ∧
    (Except.error CryptoErr.openFailed ≠
      (Except.ok (b64enc (magicBytes ++ List.replicate 28 0)) :
        Except CryptoErr (List Nat))) := by
  refine ⟨rfl, rfl, by simp⟩

/-- The spec's wording of `IsEncrypted`, stated independently of the code:
base64-decodable, decoded length exceeds the marker length, decoded bytes
start with the marker. -/
def IsEncryptedSpec (v : List Nat) : Prop :=
  ∃ d, b64dec v = some d ∧ d.length > magicBytes.length ∧
    startsWith magicBytes d = true

/-- C2 (amended): `IsEncrypted` is total and matches the spec's predicate
exactly; it agrees with `Decrypt`'s pass-through branch on every value except
those whose decoded bytes equal the magic marker exactly (there `IsEncrypted`
is false, yet `Decrypt` proceeds and fails with `"ciphertext too short"`
instead of passing the value through); and whenever the pass-through branch
is taken, `Decrypt` returns the value unchanged. -/
theorem c2_isEncrypted_agreement :
    (∀ v, IsEncrypted v = true ↔ IsEncryptedSpec v) ∧
    (∀ v, b64dec v ≠ some magicBytes →
      (IsEncrypted v = false ↔ decryptPassThru v = true)) ∧
    (∀ g v k, k.length = 32 → decryptPassThru v = true →
      Decrypt g v k = .ok v) := by
  refine ⟨?_, ?_, ?_⟩
  · intro v
    cases hb : b64dec v with
    | none => simp [IsEncrypted, IsEncryptedSpec, hb]
    | some d => simp [IsEncrypted, IsEncryptedSpec, hb]
  · intro v hv
    cases hb : b64dec v with
    | none => simp [IsEncrypted, decryptPassThru, hb]
    | some d =>
      rw [hb] at hv
      have hdm : d ≠ magicBytes := fun h => hv (by rw [h])
      cases hsw : startsWith magicBytes d with
      | false => simp [IsEncrypted, decryptPassThru, hb, hsw]
      | true =>
        simp [IsEncrypted, decryptPassThru, hb, hsw]
        constructor
        · intro hle
          rcases Nat.lt_or_ge d.length magicBytes.length with h | h
          · exact h
          · exact absurd (startsWith_length_le magicBytes d hsw
              (by omega)) hdm
        · intro hlt
          omega
  · intro g v k hk hpt
    cases hb : b64dec v with
    | none => simp [Decrypt, hk, keySize, hb]
    | some d =>
      rw [decryptPassThru, hb] at hpt
      simp at hpt
      have hcond : d.length < magicBytes.length ∨
          ¬ startsWith magicBytes d = true := by
        rcases hpt with h | h
        · exact Or.inl h
        · exact Or.inr (by simp [h])
      simp [Decrypt, hk, keySize, hb, hcond]
      intro h1 h2
      rcases hcond with h | h
      · omega
      · exact absurd h2 h

/-- C2 witness: the agreement applied at a value that is not base64. -/
theorem c2_isEncrypted_agreement_wit :
    Decrypt gcm0 [33] (List.replicate 32 0) = .ok [33] :=
  c2_isEncrypted_agreement.2.2 gcm0 [33] (List.replicate 32 0) (by simp) rfl

/-- C2 counterexample: `"ZW52eA=="` (base64 of exactly the marker bytes) has
`IsEncrypted` false, yet `Decrypt` does not take the pass-through branch: it
attempts decryption and fails, so the two disagree on this value. -/
theorem c2_cex :
    IsEncrypted [90, 87, 53, 50, 101, 65, 61, 61] = false ∧
    decryptPassThru [90, 87, 53, 50, 101, 65, 61, 61] = false ∧
    Decrypt gcm0 [90, 87, 53, 50, 101, 65, 61, 61] (List.replicate 32 0)
      = .error .tooShort := by
  refine ⟨rfl, rfl, rfl⟩

/-- C3 (amended): only the password-derived provider treats a present-but-
unreadable or malformed record as fatal — `LoadOrCreateKey` then propagates
the failure and leaves the state unchanged. The mock and secure-storage
providers instead create and persist a fresh key whenever the lookup fails
(for any reason) or the stored key has the wrong length. -/
theorem c3_loadOrCreate_failure_handling :
    (∀ kdf iters env cfg promptRes freshSalt (fs : SaltFS) a,
        lookupKey fs a = some .unreadable →
        pw2LoadOrCreateKey kdf iters env cfg promptRes freshSalt fs a =
          (.error .saltUnreadable, fs)) ∧
    (∀ kdf iters env cfg promptRes freshSalt (fs : SaltFS) a s,
        lookupKey fs a = some (.content s) → s.length ≠ saltSize →
        pw2LoadOrCreateKey kdf iters env cfg promptRes freshSalt fs a =
          (.error .saltUnreadable, fs)) ∧
    (∀ fresh st a k, lookupKey st a = some k → k.length ≠ keySize →
        fresh.length = keySize →
        mockLoadOrCreateKey fresh st a = (.ok fresh, updateKey st a fresh)) ∧
    (∀ fresh (kc : Keychain) a, a ∈ kc.failing → fresh.length = keySize →
        macLoadOrCreateKey fresh kc a = (.ok fresh, kcSet kc a fresh)) := by
  refine ⟨?_, ?_, ?_, ?_⟩
  · intro kdf iters env cfg promptRes freshSalt fs a h
    simp [pw2LoadOrCreateKey, getSalt, h]
  · intro kdf iters env cfg promptRes freshSalt fs a s h hs
    simp [pw2LoadOrCreateKey, getSalt, h, hs]
  · intro fresh st a k h hk hf
    simp [mockLoadOrCreateKey, mockGetKey, h, hk, mockCreateKey, mockSetKey,
      hf]
  · intro fresh kc a h hf
    simp [macLoadOrCreateKey, macGetKey, kcGet, h, macCreateKey, macSetKey,
      hf]

/-- C3 witness: the password provider propagates an unreadable salt file
without touching the state. -/
theorem c3_loadOrCreate_failure_handling_wit :
    pw2LoadOrCreateKey (fun _ s _ => s) 1000 "" "" none (List.replicate 32 3)
        [("alice", SaltFile.unreadable)] "alice"
      = (.error .saltUnreadable, [("alice", SaltFile.unreadable)]) :=
  c3_loadOrCreate_failure_handling.1 (fun _ s _ => s) 1000 "" "" none
    (List.replicate 32 3) [("alice", SaltFile.unreadable)] "alice" rfl

/-- C3 counterexample: with a malformed (16-byte) stored key, the mock
provider's `LoadOrCreateKey` does not fail — it creates, persists and returns
a fresh key, replacing the stored record. -/
theorem c3_cex :
    mockLoadOrCreateKey (List.replicate 32 7)
        [("alice", List.replicate 16 0)] "alice"
      = (.ok (List.replicate 32 7), [("alice", List.replicate 32 7)]) ∧
    ([("alice", List.replicate 32 7)] :
      List (String × List Nat)) ≠ [("alice", List.replicate 16 0)] := by
  refine ⟨rfl, by decide⟩

/-- C4 (amended): `Decrypt` returns its input unchanged for every value that
fails base64 decoding or whose decoded bytes are shorter than the marker or
do not start with it. Values whose decoded bytes do start with the marker
but form no valid envelope body yield an error instead of passing through —
see the counterexample. -/
theorem c4_transparent_pass_through (g : GCM) (p k : List Nat)
    (hk : k.length = 32)
    (h : ∀ d, b64dec p = some d →
      d.length < magicBytes.length ∨ startsWith magicBytes d = false) :
    Decrypt g p k = .ok p := by
  cases hb : b64dec p with
  | none => simp [Decrypt, hk, keySize, hb]
  | some d =>
    have hcond := h d hb
    simp [Decrypt, hk, keySize, hb]
    intro h1 h2
    rcases hcond with hh | hh
    · omega
    · rw [h2] at hh
      cases hh

/-- C4 witness: a two-byte non-base64 value passes through unchanged. -/
theorem c4_transparent_pass_through_wit :
    Decrypt gcm0 [104, 105] (List.replicate 32 0) = .ok [104, 105] :=
  c4_transparent_pass_through gcm0 [104, 105] (List.replicate 32 0)
    (by simp) (fun d hd => by simp [b64dec] at hd)

/-- C4 counterexample: `"ZW52eA=="` decodes to exactly the marker bytes — not
a valid envelope under any key — yet `Decrypt` returns the error
`"ciphertext too short"` rather than the value unchanged. -/
theorem c4_cex :
    Decrypt gcm0 [90, 87, 53, 50, 101, 65, 61, 61] (List.replicate 32 0)
      = .error .tooShort ∧
    (Except.error CryptoErr.tooShort ≠
      (Except.ok [90, 87, 53, 50, 101, 65, 61, 61] :
        Except CryptoErr (List Nat))) := by
  refine ⟨rfl, by simp⟩

/-- C5 (amended): `CreateKey` unconditionally generates a fresh key/salt and
overwrites any existing record for the account in both the secure-storage
and password backends; no existing-record guard exists (existing records are
reused only on the `LoadOrCreateKey` path). -/
theorem c5_createKey_overwrites :
    (∀ fresh (kc : Keychain) a, fresh.length = keySize →
        macCreateKey fresh kc a = (.ok fresh, kcSet kc a fresh)) ∧
    (∀ kdf iters env cfg promptRes freshSalt (fs : SaltFS) a pw,
        freshSalt.length = saltSize →
        getPassword env cfg promptRes = .ok pw →
        pw2CreateKey kdf iters env cfg promptRes freshSalt fs a =
          (.ok (kdf pw freshSalt iters), setSalt fs a freshSalt)) := by
  constructor
  · intro fresh kc a hf
    simp [macCreateKey, macSetKey, hf]
  · intro kdf iters env cfg promptRes freshSalt fs a pw hf hpw
    simp [pw2CreateKey, hf, hpw]

/-- C5 witness: creating over an existing keychain record stores the fresh
key. -/
theorem c5_createKey_overwrites_wit :
    macCreateKey (List.replicate 32 5)
        ⟨[("alice", List.replicate 32 9)], []⟩ "alice"
      = (.ok (List.replicate 32 5),
         kcSet ⟨[("alice", List.replicate 32 9)], []⟩ "alice"
           (List.replicate 32 5)) :=
  c5_createKey_overwrites.1 (List.replicate 32 5)
    ⟨[("alice", List.replicate 32 9)], []⟩ "alice" rfl

/-- C5 counterexample: the password backend's `CreateKey` on an account with
an existing readable salt replaces the stored salt — the stored record is
changed by the call, with no separate overwrite path involved. -/
theorem c5_cex :
    pw2CreateKey (fun _ s _ => s) 1000 "" "pw" none (List.replicate 32 2)
        [("alice", SaltFile.content (List.replicate 32 1))] "alice"
      = (.ok (List.replicate 32 2),
         [("alice", SaltFile.content (List.replicate 32 2))]) ∧
    SaltFile.content (List.replicate 32 2) ≠
      SaltFile.content (List.replicate 32 1) := by
  refine ⟨rfl, by decide⟩

/-- C6 (amended): a `CreateKey` whose confirmation mismatches fails with
`"passwords do not match"`, returns no key, and leaves the salt written
before the prompts on disk; a subsequent `LoadOrCreateKey` succeeds and
derives its key from that same salt via `GetKey` (one prompt, no
confirmation step); a direct second `CreateKey` instead generates and stores
a fresh salt and derives its key from the fresh salt, not from the salt
written by the failed attempt. -/
theorem c6_mismatch_salt_persistence
    (kdf : String → List Nat → Nat → List Nat) (iters : Nat) (fs : SaltFS)
    (a : String) (s1 s2 : List Nat) (pwA pwB pw : String)
    (h1 : s1.length = saltSize) (h2 : s2.length = saltSize)
    (hne : pwA ≠ pwB) :
    pw1CreateKey kdf iters [pwA, pwB] s1 fs a =
      (.error .passwordMismatch, setSalt fs a s1) ∧
    pw1LoadOrCreateKey kdf iters [pw] s2 (setSalt fs a s1) a =
      (.ok (kdf pw s1 iters), setSalt fs a s1) ∧
    pw1CreateKey kdf iters [pw, pw] s2 (setSalt fs a s1) a =
      (.ok (kdf pw s2 iters), setSalt (setSalt fs a s1) a s2) := by
  refine ⟨?_, ?_, ?_⟩
  · simp [pw1CreateKey, h1, hne]
  · have hget : getSalt (setSalt fs a s1) a = .ok s1 := by
      simp [getSalt, setSalt, lookupKey_updateKey, h1]
    simp [pw1LoadOrCreateKey, hget, pw1GetKey]
  · simp [pw1CreateKey, h2]

/-- C6 witness: the three-step scenario at concrete passwords and salts. -/
theorem c6_mismatch_salt_persistence_wit :
    pw1CreateKey (fun _ s _ => s) 1000 ["correct", "incorrect"]
        (List.replicate 32 1) [] "alice" =
      (.error .passwordMismatch,
        setSalt [] "alice" (List.replicate 32 1)) ∧
    pw1LoadOrCreateKey (fun _ s _ => s) 1000 ["next"] (List.replicate 32 2)
        (setSalt [] "alice" (List.replicate 32 1)) "alice" =
      (.ok (List.replicate 32 1), setSalt [] "alice" (List.replicate 32 1)) ∧
    pw1CreateKey (fun _ s _ => s) 1000 ["next", "next"]
        (List.replicate 32 2) (setSalt [] "alice" (List.replicate 32 1))
        "alice" =
      (.ok (List.replicate 32 2),
        setSalt (setSalt [] "alice" (List.replicate 32 1)) "alice"
          (List.replicate 32 2)) :=
  c6_mismatch_salt_persistence (fun _ s _ => s) 1000 [] "alice"
    (List.replicate 32 1) (List.replicate 32 2) "correct" "incorrect" "next"
    rfl rfl (by decide)

/-- C6 counterexample: after the failed attempt wrote salt `1…1`, a second
`CreateKey` with matching confirmations succeeds but derives its key (here
the KDF returns the salt it was given) from the freshly generated salt
`2…2`, not from the salt written by the first attempt, and overwrites the
stored salt. -/
theorem c6_cex :
    pw1CreateKey (fun _ s _ => s) 1000 ["correct", "incorrect"]
        (List.replicate 32 1) [] "alice"
      = (.error .passwordMismatch,
         [("alice", SaltFile.content (List.replicate 32 1))]) ∧
    pw1CreateKey (fun _ s _ => s) 1000 ["next", "next"]
        (List.replicate 32 2)
        [("alice", SaltFile.content (List.replicate 32 1))] "alice"
      = (.ok (List.replicate 32 2),
         [("alice", SaltFile.content (List.replicate 32 2))]) ∧
    (List.replicate 32 2 : List Nat) ≠ List.replicate 32 1 := by
  refine ⟨rfl, rfl, by decide⟩

/-- C7 (amended): the password-derived provider resolves the password in this
priority order: first the `ENVX_PASSWORD` environment variable, second the
explicitly supplied (programmatic/flag) password, third the interactive
prompt; a lower-priority source is consulted only when every higher-priority
source is absent. (The claim's order of the first two sources is reversed
relative to the code — see the counterexample.) -/
theorem c7_password_priority :
    (∀ env cfg promptRes, env ≠ "" →
        getPassword env cfg promptRes = .ok env) ∧
    (∀ cfg promptRes, cfg ≠ "" → getPassword "" cfg promptRes = .ok cfg) ∧
    (∀ pw, getPassword "" "" (some pw) = .ok pw) ∧
    getPassword "" "" none = .error .promptFailed := by
  refine ⟨?_, ?_, ?_, rfl⟩
  · intro env cfg promptRes h
    simp [getPassword, h]
  · intro cfg promptRes h
    simp [getPassword, h]
  · intro pw
    simp [getPassword]

/-- C7 witness: the environment variable wins when all three sources are
present. -/
theorem c7_password_priority_wit :
    getPassword "envpw" "cfgpw" (some "promptpw") = .ok "envpw" :=
  c7_password_priority.1 "envpw" "cfgpw" (some "promptpw") (by decide)

/-- C7 counterexample: with both an explicit password and the environment
variable set, the code returns the environment password, not the explicit
one the claim says has top priority. -/
theorem c7_cex :
    getPassword "envpw" "cfgpw" (some "promptpw") = .ok "envpw" ∧
    ((Except.ok "envpw" : Except KSErr String) ≠ .ok "cfgpw") := by
  refine ⟨rfl, by simp⟩

/-- C8 (amended): with a key of any length other than 32 bytes, `Encrypt`
and `Decrypt` fail with the size-mismatch error before any cryptographic
work, and the mock and secure-storage `SetKey` fail with it before any
storage write; the password backend's `SetKey`, however, fails with the
unsupported-operation error regardless of the key's length — see the
counterexample. -/
theorem c8_key_size_enforcement :
    (∀ g nonce p k, k.length ≠ 32 →
        Encrypt g nonce p k = .error (.invalidKeySize 32 k.length)) ∧
    (∀ g c k, k.length ≠ 32 →
        Decrypt g c k = .error (.invalidKeySize 32 k.length)) ∧
    (∀ st a key, key.length ≠ 32 →
        mockSetKey st a key = (.error (.invalidKeySize 32 key.length), st)) ∧
    (∀ kc a key, key.length ≠ 32 →
        macSetKey kc a key = (.error (.invalidKeySize 32 key.length), kc)) ∧
    (∀ a key, pw2SetKey a key = .error .unsupported) := by
  refine ⟨?_, ?_, ?_, ?_, fun a key => rfl⟩
  · intro g nonce p k h
    simp [Encrypt, keySize, h]
  · intro g c k h
    simp [Decrypt, keySize, h]
  · intro st a key h
    simp [mockSetKey, keySize, h]
  · intro kc a key h
    simp [macSetKey, keySize, h]

/-- C8 witness: a 31-byte key is rejected by `Encrypt` with the
size-mismatch error. -/
theorem c8_key_size_enforcement_wit :
    Encrypt gcm0 (List.replicate 12 0) [104] (List.replicate 31 0)
      = .error (.invalidKeySize 32 31) := by
  have h := c8_key_size_enforcement.1 gcm0 (List.replicate 12 0) [104]
    (List.replicate 31 0) (by simp)
  simpa using h

/-- C8 counterexample: the password backend's `SetKey` with a 31-byte key
fails with the unsupported-operation error, not the size-mismatch error the
claim requires. -/
theorem c8_cex :
    pw2SetKey "alice" (List.replicate 31 0) = .error .unsupported ∧
    KSErr.unsupported ≠ KSErr.invalidKeySize 32 31 := by
  refine ⟨rfl, by simp⟩

/-- C9 (confirmed): encryption is idempotent — encrypting an `Encrypt`
output again (under any later nonce) returns it unchanged, because the
output always satisfies `IsEncrypted`; values already satisfying
`IsEncrypted` are returned unchanged by both calls. -/
theorem c9_encrypt_idempotent (g : GCM) (n1 n2 p k : List Nat)
    (hsb : g.SealBytes) (hk : k.length = 32) (hn1 : n1.length = 12)
    (hnb : ∀ b ∈ n1, b < 256) (hpb : ∀ b ∈ p, b < 256) :
    ∃ c, Encrypt g n1 p k = .ok c ∧ Encrypt g n2 c k = .ok c := by
  cases hE : IsEncrypted p with
  | true =>
    exact ⟨p, by simp [Encrypt, hk, keySize, hE],
      by simp [Encrypt, hk, keySize, hE]⟩
  | false =>
    refine ⟨b64enc (magicBytes ++ encryptAES g k n1 p), ?_, ?_⟩
    · simp [Encrypt, hk, keySize, hE]
    · have hEnc := isEncrypted_envelope g k n1 p hpb hnb hn1 hsb
      simp [Encrypt, hk, keySize, hEnc]

/-- C9 witness: idempotence at a concrete plaintext, key and nonces. -/
theorem c9_encrypt_idempotent_wit :
    ∃ c, Encrypt gcm0 (List.replicate 12 0) [104, 105]
          (List.replicate 32 0) = .ok c ∧
        Encrypt gcm0 (List.replicate 12 9) c (List.replicate 32 0) = .ok c :=
  c9_encrypt_idempotent gcm0 (List.replicate 12 0) (List.replicate 12 9)
    [104, 105] (List.replicate 32 0) gcm0_sealBytes (by simp) (by simp)
    (by intro b hb; rw [List.eq_of_mem_replicate hb]; omega)
    (by intro b hb; simp at hb; rcases hb with h | h <;> omega)

/-- C10 (confirmed): a successful `Encrypt` output always satisfies
`IsEncrypted`; when the plaintext was not already an envelope, the output
base64-decodes to the 4-byte marker, the 12-byte nonce and the
ciphertext-plus-16-byte-tag, so the decoded length is `p.length + 32`, which
strictly exceeds the marker length. -/
theorem c10_envelope_shape (g : GCM) (nonce p k : List Nat)
    (hsl : g.SealLen) (hsb : g.SealBytes) (hk : k.length = 32)
    (hn : nonce.length = 12) (hnb : ∀ b ∈ nonce, b < 256)
    (hpb : ∀ b ∈ p, b < 256) :
    ∃ c, Encrypt g nonce p k = .ok c ∧ IsEncrypted c = true ∧
      (IsEncrypted p = false →
        b64dec c = some (magicBytes ++ nonce ++ g.enc k nonce p) ∧
        (magicBytes ++ nonce ++ g.enc k nonce p).length = p.length + 32 ∧
        p.length + 32 > magicBytes.length) := by
  cases hE : IsEncrypted p with
  | true =>
    refine ⟨p, by simp [Encrypt, hk, keySize, hE], hE, ?_⟩
    intro h
    cases h
  | false =>
    refine ⟨b64enc (magicBytes ++ encryptAES g k nonce p),
      by simp [Encrypt, hk, keySize, hE],
      isEncrypted_envelope g k nonce p hpb hnb hn hsb, ?_⟩
    intro _
    refine ⟨envelope_decodes g k nonce p hpb hnb hsb, ?_, ?_⟩
    · simp [magicBytes, hn, hsl k nonce p]
      omega
    · simp [magicBytes]

/-- C10 witness: envelope shape at a concrete plaintext, including the
decoded length `2 + 32 = 34`. -/
theorem c10_envelope_shape_wit :
    ∃ c, Encrypt gcm0 (List.replicate 12 0) [104, 105]
          (List.replicate 32 0) = .ok c ∧ IsEncrypted c = true ∧
        (IsEncrypted [104, 105] = false →
          b64dec c = some (magicBytes ++ List.replicate 12 0 ++
            gcm0.enc (List.replicate 32 0) (List.replicate 12 0) [104, 105]) ∧
          (magicBytes ++ List.replicate 12 0 ++
            gcm0.enc (List.replicate 32 0) (List.replicate 12 0)
              [104, 105]).length = [104, 105].length + 32 ∧
          [104, 105].length + 32 > magicBytes.length) :=
  c10_envelope_shape gcm0 (List.replicate 12 0) [104, 105]
    (List.replicate 32 0) gcm0_sealLen gcm0_sealBytes (by simp) (by simp)
    (by intro b hb; rw [List.eq_of_mem_replicate hb]; omega)
    (by intro b hb; simp at hb; rcases hb with h | h <;> omega)
